import Mathlib

/-!
Verification development for the eslint-plugin-nextpublic repository.

The repository contains a single ESLint rule in two observed variants:
  * variant 000 (lib/rules/require-justification, upward-search variant):
    upward directory search for the sidecar file, a MemberExpression visitor,
    enforced justification minimum of 20 characters (message text says 8),
    and a process-wide aggregate of found variables printed at process exit;
  * variant 001 (single-directory variant): sidecar looked up only in the
    working directory, guarded by try/catch, no MemberExpression visitor,
    enforced minimum of 8 characters, and a per-file summary log emitted
    only when at least one variable was found.

The development shallowly embeds both variants.  Host collaborators are
modeled as explicit parameters: the file system is a structure of total
functions (a read that can fail returns Except, modelling a thrown
exception), JSON.parse is an abstract parameter producing either a store
or a parse error, and paths are lists of components from the filesystem
root (so the root directory is the empty list and path.dirname drops the
last component).  JavaScript string lengths are modeled as codepoint
counts (identical to UTF-16 unit counts for the ASCII data of interest).
-/

namespace NextPublic

/-- A justification store: the JS object produced from the sidecar file,
keys are variable names, values justification strings.  Association list
with JavaScript object semantics (a later assignment overwrites). -/
abbrev Store := List (String × String)

/-- JS object property read: `justifications[key]`. -/
def Store.get (s : Store) (k : String) : Option String :=
  s.lookup k

/-- JS object property write: `justifications[key] = v` (overwrites any
previous binding for the key). -/
def Store.set (s : Store) (k : String) (v : String) : Store :=
  (k, v) :: s.eraseP (fun p => p.1 == k)

/-- Characters removed by JavaScript String.prototype.trim: ASCII
whitespace, NBSP, BOM and the line separators.  (The remaining Unicode
Zs characters are omitted; they do not occur in any input considered
here.) -/
def isTrimmable (c : Char) : Bool :=
  c == ' ' || c == '\t' || c == '\n' || c == '\r' ||
  c.val == 0x0B || c.val == 0x0C || c.val == 0xA0 ||
  c.val == 0xFEFF || c.val == 0x2028 || c.val == 0x2029

/-- Model of JS `s.trim()`. -/
def jsTrim (s : String) : String :=
  String.mk (((s.data.dropWhile isTrimmable).reverse.dropWhile isTrimmable).reverse)

/-- Model of JS `s.startsWith(pat)`. -/
def startsWithStr (s pat : String) : Bool :=
  pat.data.isPrefixOf s.data

/-- Helper for JS `s.includes(pat)`: does the character sequence `pat`
occur contiguously inside `l`? -/
def hasSubSeq (pat : List Char) : List Char → Bool
  | [] => pat.isEmpty
  | c :: rest => pat.isPrefixOf (c :: rest) || hasSubSeq pat rest

/-- Model of JS `s.includes(pat)`. -/
def includesStr (s pat : String) : Bool :=
  hasSubSeq pat.data s.data

/-- The character class `[A-Z0-9_]` of the detection regex. -/
def isVarChar (c : Char) : Bool :=
  ('A' ≤ c && c ≤ 'Z') || ('0' ≤ c && c ≤ '9') || c == '_'

/-- The literal part of the detection regex, as characters. -/
def npChars : List Char := "NEXT_PUBLIC_".data

/-- Scanner for JS `value.match(/NEXT_PUBLIC_[A-Z0-9_]+/g)`: left to
right, at each position try the pattern (literal prefix then a maximal
nonempty run of `[A-Z0-9_]`); after a match resume after its end
(non-overlapping, as with a global regex).  The `skip` counter carries
the number of already-consumed positions so that the recursion is
structural on the character list. -/
def scanAux (skip : Nat) : List Char → List String
  | [] => []
  | c :: rest =>
    match skip with
    | k + 1 => scanAux k rest
    | 0 =>
      if npChars.isPrefixOf (c :: rest) then
        let run := ((c :: rest).drop 12).takeWhile isVarChar
        if run.isEmpty then scanAux 0 rest
        else ("NEXT_PUBLIC_" ++ String.mk run) :: scanAux (11 + run.length) rest
      else scanAux 0 rest

/-- All matches of `/NEXT_PUBLIC_[A-Z0-9_]+/g` in a string. -/
def scanMatches (s : String) : List String :=
  scanAux 0 s.data

/-- Characters matched by `.` in a JS regex (anything except the four
line terminators). -/
def dotOk (c : Char) : Bool :=
  !(c == '\n' || c == '\r' || c.val == 0x2028 || c.val == 0x2029)

/-- Core of the line regex `^([^=]+)=\"(.*)\"$` from parseSimpleFormat:
`[^=]+` matches the maximal nonempty run of non-'=' characters (so it
ends at the first '='), the next character must be '"', `(.*)` greedily
matches characters allowed by '.', and the line must end in '"' after a
nonempty quoted region.  Returns the two capture groups. -/
def matchKV (cs : List Char) : Option (List Char × List Char) :=
  let k := cs.takeWhile (fun c => c != '=')
  match cs.dropWhile (fun c => c != '=') with
  | '=' :: '"' :: rest =>
    if k.isEmpty then none
    else
      match rest.reverse with
      | '"' :: vrev => if vrev.all dotOk then some (k, vrev.reverse) else none
      | _ => none
  | _ => none

/-- `line.match(/^([^=]+)=\"(.*)\"$/)`, returning the captures. -/
def lineKV (line : String) : Option (String × String) :=
  (matchKV line.data).map (fun kv => (String.mk kv.1, String.mk kv.2))

/-- One iteration of the forEach in parseSimpleFormat: skip empty and
'#'-comment lines, otherwise try the KEY="VALUE" regex; a non-matching
line contributes nothing. -/
def parseLine (justifications : Store) (line : String) : Store :=
  if jsTrim line = "" ∨ startsWithStr (jsTrim line) "#" = true then justifications
  else
    match lineKV line with
    | some kv => justifications.set (jsTrim kv.1) (jsTrim kv.2)
    | none => justifications

/-- Model of JS `content.split("\n")` on a character list. -/
def splitLines : List Char → List (List Char)
  | [] => [[]]
  | c :: rest =>
    match splitLines rest with
    | line :: lines => if c = '\n' then [] :: line :: lines else (c :: line) :: lines
    | [] => []

/-- parseSimpleFormat from variant 000 (inlined verbatim inside the
fallback branch of variant 001): split on newlines and fold the
line parser over the lines, starting from an empty object. -/
def parseSimpleFormat (content : String) : Store :=
  ((splitLines content.data).map String.mk).foldl parseLine []

/-- The shared parse step applied to sidecar file content in both
variants: `JSON.parse` first (abstracted as the `jp` collaborator),
falling back to the simple key-value format exactly when JSON parsing
throws. -/
def parseContent (jp : String → Except String Store) (content : String) : Store :=
  match jp content with
  | .ok store => store
  | .error _ => parseSimpleFormat content

/-- The file system collaborator.  Paths are component lists from the
filesystem root; a file is its directory components followed by its
name.  readFileSync returning `.error` models a thrown exception. -/
structure FS where
  existsSync : List String → Bool
  readFileSync : List String → Except String String

/-- The sidecar file name. -/
def rcName : String := ".nextpublicrc"

/-- The informational message logged by variant 000 when no sidecar file
was found anywhere. -/
def noFileMsg : String := "No .nextpublicrc file found in any parent directory"

/-- The upward-search loop of variant 000, on the reversed component
list of the current directory (so `path.dirname`, which drops the last
component, is the structural tail here).  The loop runs while the
current directory differs from the root, checks for `.nextpublicrc` in
the current directory, and returns the parsed content of the first hit;
reads are not guarded, so a read failure propagates.  The source also
breaks when `path.dirname` returns its argument unchanged, which cannot
happen for a non-root directory and is therefore not represented. -/
def searchUpRev (fs : FS) (jp : String → Except String Store) :
    List String → Except String (Store × Option String)
  | [] => .ok ([], some noFileMsg)
  | c :: rs =>
    let dir := ((c :: rs) : List String).reverse
    if fs.existsSync (dir ++ [rcName]) then
      match fs.readFileSync (dir ++ [rcName]) with
      | .ok content => .ok (parseContent jp content, none)
      | .error e => .error e
    else searchUpRev fs jp rs

/-- The upward search from a working directory (component list). -/
def searchUp (fs : FS) (jp : String → Except String Store)
    (cwd : List String) : Except String (Store × Option String) :=
  searchUpRev fs jp cwd.reverse

/-- readJustificationsFile of variant 000.  `rcPath` is the already
resolved explicit sidecar path (path.resolve is a host collaborator);
when it is present and exists, that file alone is read and parsed
(the read is not guarded, so a failure propagates), otherwise the
upward search runs.  The second component of the result is the
informational log message, if one was printed. -/
def readJustificationsFile000 (fs : FS) (jp : String → Except String Store)
    (cwd : List String) (rcPath : Option (List String)) :
    Except String (Store × Option String) :=
  match rcPath with
  | some customRcPath =>
    if fs.existsSync customRcPath then
      match fs.readFileSync customRcPath with
      | .ok content => .ok (parseContent jp content, none)
      | .error e => .error e
    else searchUp fs jp cwd
  | none => searchUp fs jp cwd

/-- readJustificationsFile of variant 001: look only in the working
directory, with the whole body inside try/catch, so an unreadable file
degrades to the empty store.  The fallback parser is inlined in the
source with exactly the parseSimpleFormat logic. -/
def readJustificationsFile001 (fs : FS) (jp : String → Except String Store)
    (cwd : List String) : Store :=
  let rcFilePath := cwd ++ [rcName]
  if fs.existsSync rcFilePath then
    match fs.readFileSync rcFilePath with
    | .ok content => parseContent jp content
    | .error _ => []
  else []

/-- The value carried by a Literal AST node: the rule only distinguishes
string values (typeof node.value === "string") from everything else. -/
inductive LitVal where
  | str (s : String)
  | other

mutual
/-- The fragment of the ESLint (ESTree) AST relevant to the rule.
A member expression records its object, its property node and its
computed flag; a template literal records its static segments (the raw
text of each TemplateElement) and its embedded expressions.  The host
traversal visits every node, including the property node of a member
expression. -/
inductive Node where
  | program (body : NodeList)
  | ident (name : String)
  | lit (value : LitVal)
  | template (quasis : List String) (exprs : NodeList)
  | member (obj : Node) (prop : Node) (computed : Bool)

/-- A list of AST nodes (separate type so that traversal is mutually
structural). -/
inductive NodeList where
  | nil
  | cons (head : Node) (tail : NodeList)
end

/-- Diagnostic message of the "requires justification" report (same
text in both variants). -/
def requiresMsg (vname : String) : String :=
  "NEXT_PUBLIC variable '" ++ vname ++ "' requires justification in .nextpublicrc file"

/-- Diagnostic message of the "too short" report (both variants say 8
in the message, whatever the enforced threshold). -/
def tooShortMsg (vname : String) : String :=
  "Justification for NEXT_PUBLIC variable '" ++ vname ++
  "' must be at least 8 characters long"

/-- Per-file mutable state of one rule invocation: the foundVariables
Set (in insertion order) and the diagnostics reported so far (in
report order). -/
structure RuleState where
  found : List String
  diags : List String
deriving DecidableEq, Repr

/-- JS `Set.prototype.add`: append if not already present. -/
def addFound (found : List String) (vname : String) : List String :=
  if found.contains vname then found else found ++ [vname]

/-- checkJustification of variant 000: record the variable, then report
"requires justification" when the store lookup is falsy (absent, or
present with the empty string), else "too short" when the justification
has fewer than 20 characters (the message text nevertheless says 8). -/
def checkJustification (vname : String) (justifications : Store)
    (st : RuleState) : RuleState :=
  let st := { st with found := addFound st.found vname }
  match justifications.get vname with
  | none => { st with diags := st.diags ++ [requiresMsg vname] }
  | some j =>
    if j = "" then { st with diags := st.diags ++ [requiresMsg vname] }
    else if j.length < 20 then { st with diags := st.diags ++ [tooShortMsg vname] }
    else st

/-- The check block variant 001 inlines verbatim in each of its three
visitors: identical to variant 000 except that the enforced minimum is
8 characters. -/
def check001 (vname : String) (justifications : Store)
    (st : RuleState) : RuleState :=
  let st := { st with found := addFound st.found vname }
  match justifications.get vname with
  | none => { st with diags := st.diags ++ [requiresMsg vname] }
  | some j =>
    if j = "" then { st with diags := st.diags ++ [requiresMsg vname] }
    else if j.length < 8 then { st with diags := st.diags ++ [tooShortMsg vname] }
    else st

/-- Literal visitor (shared shape of both variants, parameterized by
the check used): for string values containing "NEXT_PUBLIC_", check
every regex match. -/
def literalVisitor (check : String → Store → RuleState → RuleState)
    (justifications : Store) (value : LitVal) (st : RuleState) : RuleState :=
  match value with
  | .str s =>
    if includesStr s "NEXT_PUBLIC_" then
      (scanMatches s).foldl (fun acc vname => check vname justifications acc) st
    else st
  | .other => st

/-- Identifier visitor: a bare prefix test on the name. -/
def identifierVisitor (check : String → Store → RuleState → RuleState)
    (justifications : Store) (name : String) (st : RuleState) : RuleState :=
  if startsWithStr name "NEXT_PUBLIC_" then check name justifications st else st

/-- TemplateElement visitor, applied to the raw text of one static
segment.  (The source first tests `node.value && node.value.raw` for
truthiness; an empty raw string fails that test, but it also contains
no "NEXT_PUBLIC_", so the behavior is identical.) -/
def templateElementVisitor (check : String → Store → RuleState → RuleState)
    (justifications : Store) (raw : String) (st : RuleState) : RuleState :=
  if includesStr raw "NEXT_PUBLIC_" then
    (scanMatches raw).foldl (fun acc vname => check vname justifications acc) st
  else st

/-- MemberExpression visitor (variant 000 only).  Two independent
cases on the same node: the object must be a member expression whose
object is the identifier `process` and whose property is the identifier
`env` (the computed flag of either member expression is not tested);
then the property is checked when it is an identifier whose name starts
with "NEXT_PUBLIC_", respectively a string literal whose value starts
with "NEXT_PUBLIC_". -/
def memberVisitor000 (justifications : Store) (obj prop : Node)
    (st : RuleState) : RuleState :=
  let st :=
    match obj, prop with
    | .member (.ident oname) (.ident ename) _, .ident name =>
      if oname = "process" ∧ ename = "env" ∧ startsWithStr name "NEXT_PUBLIC_" = true then
        checkJustification name justifications st
      else st
    | _, _ => st
  match obj, prop with
  | .member (.ident oname) (.ident ename) _, .lit (.str value) =>
    if oname = "process" ∧ ename = "env" ∧ startsWithStr value "NEXT_PUBLIC_" = true then
      checkJustification value justifications st
    else st
  | _, _ => st

mutual
/-- Host AST traversal running the visitors of variant 000, depth
first, children in visitor-key order (object before property, quasis
before expressions). -/
def traverse000 (justifications : Store) (node : Node) (st : RuleState) :
    RuleState :=
  match node with
  | .program body => traverseList000 justifications body st
  | .ident name => identifierVisitor checkJustification justifications name st
  | .lit value => literalVisitor checkJustification justifications value st
  | .template quasis exprs =>
    let st := quasis.foldl
      (fun acc raw => templateElementVisitor checkJustification justifications raw acc) st
    traverseList000 justifications exprs st
  | .member obj prop _ =>
    let st := memberVisitor000 justifications obj prop st
    let st := traverse000 justifications obj st
    traverse000 justifications prop st

/-- Traversal of variant 000 over a node list. -/
def traverseList000 (justifications : Store) (nodes : NodeList) (st : RuleState) :
    RuleState :=
  match nodes with
  | .nil => st
  | .cons n rest => traverseList000 justifications rest (traverse000 justifications n st)
end

mutual
/-- Host AST traversal running the visitors of variant 001 (no
MemberExpression visitor; the inlined check uses the 8-character
threshold). -/
def traverse001 (justifications : Store) (node : Node) (st : RuleState) :
    RuleState :=
  match node with
  | .program body => traverseList001 justifications body st
  | .ident name => identifierVisitor check001 justifications name st
  | .lit value => literalVisitor check001 justifications value st
  | .template quasis exprs =>
    let st := quasis.foldl
      (fun acc raw => templateElementVisitor check001 justifications raw acc) st
    traverseList001 justifications exprs st
  | .member obj prop _ =>
    let st := traverse001 justifications obj st
    traverse001 justifications prop st

/-- Traversal of variant 001 over a node list. -/
def traverseList001 (justifications : Store) (nodes : NodeList) (st : RuleState) :
    RuleState :=
  match nodes with
  | .nil => st
  | .cons n rest => traverseList001 justifications rest (traverse001 justifications n st)
end

/-- The process-wide mutable state of variant 000: the global set of
variables found across all files.  (The idempotency flags guarding the
process-exit listener only control when the aggregate message prints
and never influence diagnostics, so they are not represented.) -/
structure Global where
  allFoundVariables : List String
deriving DecidableEq, Repr

/-- One rule invocation of variant 000 on one file: traverse the AST
with the per-file state fresh, then, at Program:exit, merge the file
set into the global set.  Returns the final per-file state and the
updated global state. -/
def run000 (justifications : Store) (ast : Node) (g : Global) :
    RuleState × Global :=
  let st := traverse000 justifications ast { found := [], diags := [] }
  (st, ⟨st.found.foldl addFound g.allFoundVariables⟩)

/-- The message printed by the process-exit handler of variant 000. -/
def processExitLog (g : Global) : String :=
  "Found a total of " ++ toString g.allFoundVariables.length ++
  " unique NEXT_PUBLIC variables across all files."

/-- One rule invocation of variant 001 on one file: traverse, then at
Program:exit log the per-file count, but only when it is positive.
Returns the final per-file state and the console output. -/
def run001 (justifications : Store) (ast : Node) : RuleState × List String :=
  let st := traverse001 justifications ast { found := [], diags := [] }
  (st,
    if st.found.length > 0 then
      ["Found " ++ toString st.found.length ++ " unique NEXT_PUBLIC variables in the code."]
    else [])

/-- Whole-run pipeline of variant 000 for one file: the create callback
reads the justification file (every time, no caching), then the host
traversal runs the visitors.  A loader exception propagates out of the
rule. -/
def lint000 (fs : FS) (jp : String → Except String Store) (cwd : List String)
    (rcPath : Option (List String)) (g : Global) (ast : Node) :
    Except String (RuleState × Global) :=
  match readJustificationsFile000 fs jp cwd rcPath with
  | .error e => .error e
  | .ok (justifications, _) => .ok (run000 justifications ast g)

/-- The directory chain examined by the upward search, innermost first,
on the reversed component list: the current directory, then each
ancestor, excluding the filesystem root (the empty component list). -/
def ancestorChainRev : List String → List (List String)
  | [] => []
  | c :: rs => ((c :: rs) : List String).reverse :: ancestorChainRev rs

/-- The directory chain examined by the upward search from a working
directory: the directory itself, then its parents, excluding the root. -/
def ancestorChain (cwd : List String) : List (List String) :=
  ancestorChainRev cwd.reverse

/-- Declarative result of the upward search, given the first directory
of the chain holding a sidecar file (if any): parse that file, or
return the empty store with the informational message. -/
def loaderResult (fs : FS) (jp : String → Except String Store)
    (hit : Option (List String)) : Except String (Store × Option String) :=
  match hit with
  | some d =>
    match fs.readFileSync (d ++ [rcName]) with
    | .ok content => .ok (parseContent jp content, none)
    | .error e => .error e
  | none => .ok ([], some noFileMsg)

/-- Source file consisting of the single statement
`process.env.<name>` (static member access). -/
def astStatic (name : String) : Node :=
  .program (.cons
    (.member (.member (.ident "process") (.ident "env") false) (.ident name) false)
    .nil)

/-- Source file consisting of the single statement
`process.env["<name>"]` (computed member access with a string literal). -/
def astComputed (name : String) : Node :=
  .program (.cons
    (.member (.member (.ident "process") (.ident "env") false)
      (.lit (.str name)) true)
    .nil)

/-- Source file consisting of a single bare identifier occurrence. -/
def astIdent (name : String) : Node :=
  .program (.cons (.ident name) .nil)

/-- Source file mentioning no NEXT_PUBLIC variable at all. -/
def astNoVars : Node := astIdent "foo"

/-- Source file mentioning exactly one NEXT_PUBLIC variable. -/
def astOneVar : Node := astIdent "NEXT_PUBLIC_FOO"

/-- A JSON.parse collaborator that always throws (content that is not
valid JSON). -/
def jpFail : String → Except String Store :=
  fun _ => .error "Unexpected token"

/-- A file system on which every existence check succeeds but every
read throws (permissions, or a race between check and read). -/
def fsEacces : FS :=
  { existsSync := fun _ => true
    readFileSync := fun _ => .error "EACCES: permission denied" }

/-- A file system holding a sidecar file only at the filesystem root. -/
def fsRootOnly : FS :=
  { existsSync := fun p => decide (p = [rcName])
    readFileSync := fun p => if p = [rcName] then .ok "K=\"some root data\"" else .error "ENOENT" }

/-- A file system with no files at all. -/
def fsNone : FS :=
  { existsSync := fun _ => false
    readFileSync := fun _ => .error "ENOENT" }

/-- A file system with a sidecar file in directory /home and a custom
configuration file at /etc/custom. -/
def fsC3 : FS :=
  { existsSync := fun p => decide (p = ["home", rcName] ∨ p = ["etc", "custom"])
    readFileSync := fun p =>
      if p = ["home", rcName] then .ok "NEXT_PUBLIC_A=\"needed for the client\""
      else if p = ["etc", "custom"] then .ok "NEXT_PUBLIC_B=\"still needed here\""
      else .error "ENOENT" }

/-! ## Theorems -/

/-- C1: the claim states that every occurrence of a NEXT_PUBLIC
reference yields exactly one "requires justification" diagnostic when
the variable is absent from the store, and in particular that
`process.env.NEXT_PUBLIC_X` and `process.env["NEXT_PUBLIC_X"]` yield
exactly one diagnostic each.  In the upward-search variant the
MemberExpression visitor and the Identifier visitor (respectively the
Literal visitor) both fire on the same occurrence, so the rule reports
the identical diagnostic twice — contradicting the repository test
suite, which expects exactly one error for exactly these inputs.  This
theorem evaluates the rule at the failing inputs. -/
theorem C1_memberDoubleReport :
    (run000 [] (astStatic "NEXT_PUBLIC_API_KEY") ⟨[]⟩).1.diags =
      [requiresMsg "NEXT_PUBLIC_API_KEY", requiresMsg "NEXT_PUBLIC_API_KEY"] ∧
    (run000 [] (astComputed "NEXT_PUBLIC_API_KEY") ⟨[]⟩).1.diags =
      [requiresMsg "NEXT_PUBLIC_API_KEY", requiresMsg "NEXT_PUBLIC_API_KEY"] := by
  decide

/-- C2 counterexample: the claim says a variable present in the store
with justification length below the minimum gets exactly one
"too short" diagnostic.  With justification text "" (present, length
0 < 20 and 0 < 8), the JavaScript falsiness test `!justifications[v]`
takes the "requires justification" branch instead, in both variants. -/
theorem C2_counterexample :
    (run000 [("NEXT_PUBLIC_API_KEY", "")] (astIdent "NEXT_PUBLIC_API_KEY") ⟨[]⟩).1.diags =
      [requiresMsg "NEXT_PUBLIC_API_KEY"] ∧
    (run001 [("NEXT_PUBLIC_API_KEY", "")] (astIdent "NEXT_PUBLIC_API_KEY")).1.diags =
      [requiresMsg "NEXT_PUBLIC_API_KEY"] ∧
    requiresMsg "NEXT_PUBLIC_API_KEY" ≠ tooShortMsg "NEXT_PUBLIC_API_KEY" := by
  refine ⟨by decide, by decide, by decide⟩

/-- C2 amended: for a detected variable present in the store with a
nonempty justification, the check reports exactly one "too short"
diagnostic when the length is strictly below the enforced minimum (20
in the upward-search variant, 8 in the other) and nothing otherwise; a
variable whose stored justification is the empty string is instead
reported as requiring justification. -/
theorem C2_lengthCheck (vname j : String) (justifications : Store) (st : RuleState)
    (h : justifications.get vname = some j) (hne : j ≠ "") :
    (checkJustification vname justifications st).diags =
      st.diags ++ (if j.length < 20 then [tooShortMsg vname] else []) ∧
    (check001 vname justifications st).diags =
      st.diags ++ (if j.length < 8 then [tooShortMsg vname] else []) := by
  constructor
  · simp only [checkJustification, h]
    rw [if_neg hne]
    split <;> simp
  · simp only [check001, h]
    rw [if_neg hne]
    split <;> simp

/-- C2 witness: a concrete store entry with the 5-character
justification "Short" takes the "too short" branch under both
thresholds. -/
theorem C2_witness :
    (checkJustification "NEXT_PUBLIC_API_KEY" [("NEXT_PUBLIC_API_KEY", "Short")]
        ⟨[], []⟩).diags = [tooShortMsg "NEXT_PUBLIC_API_KEY"] ∧
    (check001 "NEXT_PUBLIC_API_KEY" [("NEXT_PUBLIC_API_KEY", "Short")]
        ⟨[], []⟩).diags = [tooShortMsg "NEXT_PUBLIC_API_KEY"] := by
  have h := C2_lengthCheck "NEXT_PUBLIC_API_KEY" "Short"
    [("NEXT_PUBLIC_API_KEY", "Short")] ⟨[], []⟩ (by decide) (by decide)
  exact ⟨by rw [h.1]; decide, by rw [h.2]; decide⟩

/-- C7 counterexample: the claim says a summary message with the count
of unique variables is emitted for every file, including a count of
zero.  In the per-file variant the log is guarded by `count > 0`, so a
file without NEXT_PUBLIC variables produces no message at all. -/
theorem C7_counterexample :
    (run001 [] astNoVars).1.found.length = 0 ∧ (run001 [] astNoVars).2 = [] := by
  decide

/-- C7 amended: in the per-file variant the end-of-file summary message
is emitted exactly when the count of unique variables found is
positive; when the count is zero no message is emitted.  (The
upward-search variant emits no per-file message at all; its only
summary is the aggregate total printed by the process-exit handler.) -/
theorem C7_summaryOnlyWhenPositive (justifications : Store) (ast : Node) :
    ((run001 justifications ast).1.found.length = 0 →
      (run001 justifications ast).2 = []) ∧
    (0 < (run001 justifications ast).1.found.length →
      (run001 justifications ast).2 =
        ["Found " ++ toString (run001 justifications ast).1.found.length ++
         " unique NEXT_PUBLIC variables in the code."]) := by
  constructor
  · intro h
    simp only [run001] at h ⊢
    simp [h]
  · intro h
    simp only [run001] at h ⊢
    rw [if_pos h]

/-- C7 witness: a file without variables emits nothing; a file with one
variable emits the count message. -/
theorem C7_witness :
    (run001 [] astNoVars).2 = [] ∧
    (run001 [] astOneVar).2 = ["Found 1 unique NEXT_PUBLIC variables in the code."] := by
  refine ⟨(C7_summaryOnlyWhenPositive [] astNoVars).1 (by decide), ?_⟩
  rw [(C7_summaryOnlyWhenPositive [] astOneVar).2 (by decide)]
  decide

/-- C8: running the upward-search variant twice on the same file with
the same file system (hence the same sidecar content) yields the same
per-file result — identical diagnostics in identical order — even
though the first run mutated the process-wide global state. -/
theorem C8_idempotent (fs : FS) (jp : String → Except String Store)
    (cwd : List String) (rcPath : Option (List String))
    (g g1 g2 : Global) (st1 st2 : RuleState) (ast : Node)
    (h1 : lint000 fs jp cwd rcPath g ast = .ok (st1, g1))
    (h2 : lint000 fs jp cwd rcPath g1 ast = .ok (st2, g2)) :
    st2 = st1 := by
  unfold lint000 at h1 h2
  cases hr : readJustificationsFile000 fs jp cwd rcPath with
  | error e => rw [hr] at h1; exact absurd h1 (by simp)
  | ok pr =>
    rw [hr] at h1 h2
    simp only [run000, Except.ok.injEq, Prod.mk.injEq] at h1 h2
    rw [← h2.1, ← h1.1]

/-- C8 witness: two consecutive runs on an empty program with an empty
file system. -/
theorem C8_witness :
    lint000 fsNone jpFail ["a"] none ⟨[]⟩ (.program .nil) = .ok (⟨[], []⟩, ⟨[]⟩) ∧
    (⟨[], []⟩ : RuleState) = ⟨[], []⟩ := by
  refine ⟨rfl, ?_⟩
  exact C8_idempotent fsNone jpFail ["a"] none ⟨[]⟩ ⟨[]⟩ ⟨[]⟩ ⟨[], []⟩ ⟨[], []⟩
    (.program .nil) rfl rfl

/-- C9: identifier detection is only a prefix test, so any identifier
whose name starts with "NEXT_PUBLIC_" — including names that do not
match `NEXT_PUBLIC_[A-Z0-9_]+`, such as the bare "NEXT_PUBLIC_" or a
lowercase-suffixed "NEXT_PUBLIC_apiKey" — is added to the found set
and, when absent from the store, flagged as requiring justification,
in both variants. -/
theorem C9_prefixOnlyDetection (name : String) (justifications : Store) (g : Global)
    (hpre : startsWithStr name "NEXT_PUBLIC_" = true)
    (habs : justifications.get name = none) :
    (run000 justifications (astIdent name) g).1.diags = [requiresMsg name] ∧
    name ∈ (run000 justifications (astIdent name) g).1.found ∧
    (run001 justifications (astIdent name)).1.diags = [requiresMsg name] := by
  simp [run000, run001, astIdent, traverse000, traverseList000, traverse001,
        traverseList001, identifierVisitor, hpre, checkJustification, check001,
        habs, addFound]

/-- C9 witness: the lowercase-suffixed name "NEXT_PUBLIC_apiKey" with
an empty store. -/
theorem C9_witness :
    (run000 [] (astIdent "NEXT_PUBLIC_apiKey") ⟨[]⟩).1.diags =
      [requiresMsg "NEXT_PUBLIC_apiKey"] ∧
    "NEXT_PUBLIC_apiKey" ∈ (run000 [] (astIdent "NEXT_PUBLIC_apiKey") ⟨[]⟩).1.found ∧
    (run001 [] (astIdent "NEXT_PUBLIC_apiKey")).1.diags =
      [requiresMsg "NEXT_PUBLIC_apiKey"] :=
  C9_prefixOnlyDetection "NEXT_PUBLIC_apiKey" [] ⟨[]⟩ (by decide) rfl

/-- The upward-search loop computes exactly the declarative "parse the
first directory of the chain that has a sidecar file" result. -/
theorem searchUpRev_eq_loaderResult (fs : FS) (jp : String → Except String Store) :
    ∀ rs : List String,
      searchUpRev fs jp rs =
        loaderResult fs jp
          ((ancestorChainRev rs).find? (fun dir => fs.existsSync (dir ++ [rcName])))
  | [] => rfl
  | c :: rs => by
    simp only [searchUpRev, ancestorChainRev]
    cases h : fs.existsSync ((c :: rs).reverse ++ [rcName]) with
    | true =>
      rw [List.find?_cons_of_pos _ (by simpa using h)]
      simp [loaderResult]
    | false =>
      rw [List.find?_cons_of_neg _ (by simpa using h)]
      simp [searchUpRev_eq_loaderResult fs jp rs]

/-- Every directory the upward search examines is distinct from the
filesystem root (the empty component list). -/
theorem mem_ancestorChainRev_ne_nil :
    ∀ (rs : List String) (d : List String), d ∈ ancestorChainRev rs → d ≠ []
  | [], d, h => by simp [ancestorChainRev] at h
  | c :: rs, d, h => by
    simp only [ancestorChainRev, List.mem_cons] at h
    cases h with
    | inl h => subst h; simp
    | inr h => exact mem_ancestorChainRev_ne_nil rs d h

/-- Appending a component extends the examined chain by the new
directory at the front. -/
theorem ancestorChain_concat (l : List String) (a : String) :
    ancestorChain (l ++ [a]) = (l ++ [a]) :: ancestorChain l := by
  unfold ancestorChain
  rw [List.reverse_append]
  simp [ancestorChainRev]

/-- For a non-root working directory, the examined chain starts with
the directory itself followed by the chain of its parent. -/
theorem ancestorChain_cons_of_ne_nil (cwd : List String) (hne : cwd ≠ []) :
    ancestorChain cwd = cwd :: ancestorChain cwd.dropLast := by
  have h := List.dropLast_append_getLast hne
  calc ancestorChain cwd
      = ancestorChain (cwd.dropLast ++ [cwd.getLast hne]) := by rw [h]
    _ = (cwd.dropLast ++ [cwd.getLast hne]) :: ancestorChain cwd.dropLast :=
        ancestorChain_concat _ _
    _ = cwd :: ancestorChain cwd.dropLast := by rw [h]

/-- C3: the loader reads and parses only the explicit file when one is
given and exists; otherwise (no explicit path, or an explicit path that
does not exist) it examines the working directory and then each
ancestor in turn — the chain stopping at the filesystem root — parses
the first `.nextpublicrc` found, and returns the empty store with only
an informational message when the whole chain has none. -/
theorem C3_loaderSearch (fs : FS) (jp : String → Except String Store)
    (cwd p d : List String) (c : String) :
    (fs.existsSync p = true → fs.readFileSync p = .ok c →
      readJustificationsFile000 fs jp cwd (some p) = .ok (parseContent jp c, none)) ∧
    (fs.existsSync p = false →
      readJustificationsFile000 fs jp cwd (some p) =
        readJustificationsFile000 fs jp cwd none) ∧
    (cwd ≠ [] → ancestorChain cwd = cwd :: ancestorChain cwd.dropLast) ∧
    ((ancestorChain cwd).find? (fun dir => fs.existsSync (dir ++ [rcName])) = some d →
      fs.readFileSync (d ++ [rcName]) = .ok c →
      readJustificationsFile000 fs jp cwd none = .ok (parseContent jp c, none)) ∧
    ((ancestorChain cwd).find? (fun dir => fs.existsSync (dir ++ [rcName])) = none →
      readJustificationsFile000 fs jp cwd none = .ok ([], some noFileMsg)) := by
  refine ⟨?_, ?_, ancestorChain_cons_of_ne_nil cwd, ?_, ?_⟩
  · intro he hr
    simp [readJustificationsFile000, he, hr]
  · intro he
    simp [readJustificationsFile000, he]
  · intro hf hr
    rw [show readJustificationsFile000 fs jp cwd none = searchUpRev fs jp cwd.reverse
          from rfl,
        searchUpRev_eq_loaderResult]
    rw [show ancestorChainRev cwd.reverse = ancestorChain cwd from rfl, hf]
    simp [loaderResult, hr]
  · intro hf
    rw [show readJustificationsFile000 fs jp cwd none = searchUpRev fs jp cwd.reverse
          from rfl,
        searchUpRev_eq_loaderResult]
    rw [show ancestorChainRev cwd.reverse = ancestorChain cwd from rfl, hf]
    rfl

/-- C3 witness: a concrete file system with a sidecar file in /home and
a custom file at /etc/custom, exercising the explicit-path case, the
fallthrough when the explicit path does not exist, the chain shape, the
upward-search hit in the parent directory, and the empty result when
nothing is found. -/
theorem C3_witness :
    readJustificationsFile000 fsC3 jpFail ["home", "user"] (some ["etc", "custom"]) =
      .ok (parseContent jpFail "NEXT_PUBLIC_B=\"still needed here\"", none) ∧
    readJustificationsFile000 fsC3 jpFail ["home", "user"] (some ["nope"]) =
      readJustificationsFile000 fsC3 jpFail ["home", "user"] none ∧
    ancestorChain ["home", "user"] = ["home", "user"] :: ancestorChain ["home"] ∧
    readJustificationsFile000 fsC3 jpFail ["home", "user"] none =
      .ok (parseContent jpFail "NEXT_PUBLIC_A=\"needed for the client\"", none) ∧
    readJustificationsFile000 fsNone jpFail ["var"] none = .ok ([], some noFileMsg) := by
  refine ⟨?_, ?_, ?_, ?_, ?_⟩
  · exact (C3_loaderSearch fsC3 jpFail ["home", "user"] ["etc", "custom"] ["home"]
      "NEXT_PUBLIC_B=\"still needed here\"").1 (by decide) rfl
  · exact (C3_loaderSearch fsC3 jpFail ["home", "user"] ["nope"] ["home"]
      "").2.1 (by decide)
  · exact (C3_loaderSearch fsC3 jpFail ["home", "user"] ["nope"] ["home"]
      "x").2.2.1 (by decide)
  · exact (C3_loaderSearch fsC3 jpFail ["home", "user"] ["nope"] ["home"]
      "NEXT_PUBLIC_A=\"needed for the client\"").2.2.2.1 (by decide) rfl
  · exact (C3_loaderSearch fsNone jpFail ["var"] ["nope"] ["home"]
      "x").2.2.2.2 (by decide)

/-- C10: the loop condition of the upward search compares the current
directory against the filesystem root before looking for the file, so
the root directory itself is never examined: on a file system whose
only sidecar file lies exactly in the root, the loader returns the
empty store (with the not-found message) for every working
directory. -/
theorem C10_rootNeverExamined (fs : FS) (jp : String → Except String Store)
    (cwd : List String)
    (hroot : fs.existsSync [rcName] = true)
    (hno : ∀ dir : List String, dir ≠ [] → fs.existsSync (dir ++ [rcName]) = false) :
    readJustificationsFile000 fs jp cwd none = .ok ([], some noFileMsg) := by
  have hfind : (ancestorChainRev cwd.reverse).find?
      (fun dir => fs.existsSync (dir ++ [rcName])) = none := by
    rw [List.find?_eq_none]
    intro d hd
    simp [hno d (mem_ancestorChainRev_ne_nil cwd.reverse d hd)]
  rw [show readJustificationsFile000 fs jp cwd none = searchUpRev fs jp cwd.reverse
        from rfl,
      searchUpRev_eq_loaderResult, hfind]
  rfl

/-- C10 witness: the file system holding `.nextpublicrc` only at the
root, searched from /home/user. -/
theorem C10_witness :
    readJustificationsFile000 fsRootOnly jpFail ["home", "user"] none =
      .ok ([], some noFileMsg) :=
  C10_rootNeverExamined fsRootOnly jpFail ["home", "user"] (by decide)
    (fun dir hdir => by
      have hne : ¬(dir ++ [rcName] = [rcName]) := by
        intro h
        apply hdir
        have hlen : dir.length + 1 = 1 := by simpa using congrArg List.length h
        have h0 : dir.length = 0 := by omega
        exact List.length_eq_zero.mp h0
      exact decide_eq_false hne)

/-- C4 counterexample: the claim says a sidecar file that exists but
cannot be read behaves like a missing file (empty store, no fatal
error).  In the upward-search variant the read is not guarded by any
try/catch (only JSON.parse is), so the read exception propagates out
of the loader instead of yielding an empty store. -/
theorem C4_counterexample :
    readJustificationsFile000 fsEacces jpFail ["project"] none =
      .error "EACCES: permission denied" := rfl

/-- C4 amended: in the single-directory variant an existing but
unreadable sidecar file is treated like a missing one (empty store, no
error), but in the upward-search variant the read failure propagates
out of the loader as the thrown exception. -/
theorem C4_unreadableHandling (fs : FS) (jp : String → Except String Store)
    (cwd : List String) (e : String)
    (hex : fs.existsSync (cwd ++ [rcName]) = true)
    (hrd : fs.readFileSync (cwd ++ [rcName]) = .error e) :
    readJustificationsFile001 fs jp cwd = [] ∧
    (cwd ≠ [] → readJustificationsFile000 fs jp cwd none = .error e) := by
  constructor
  · simp [readJustificationsFile001, hex, hrd]
  · intro hne
    rw [show readJustificationsFile000 fs jp cwd none = searchUpRev fs jp cwd.reverse
          from rfl,
        searchUpRev_eq_loaderResult]
    have hfind : (ancestorChainRev cwd.reverse).find?
        (fun dir => fs.existsSync (dir ++ [rcName])) = some cwd := by
      rw [show ancestorChainRev cwd.reverse = ancestorChain cwd from rfl,
          ancestorChain_cons_of_ne_nil cwd hne]
      exact List.find?_cons_of_pos _ (by simpa using hex)
    rw [hfind]
    simp [loaderResult, hrd]

/-- C4 witness: the always-exists, never-readable file system. -/
theorem C4_witness :
    readJustificationsFile001 fsEacces jpFail ["project"] = [] ∧
    readJustificationsFile000 fsEacces jpFail ["project"] none =
      .error "EACCES: permission denied" := by
  have h := C4_unreadableHandling fsEacces jpFail ["project"] "EACCES: permission denied"
    rfl rfl
  exact ⟨h.1, h.2 (by decide)⟩

/-- takeWhile and dropWhile with the "not equals sign" predicate cut a
list exactly at its first equals sign. -/
theorem takeDropWhile_eq_split (ks t : List Char) (h : ∀ c ∈ ks, c ≠ '=') :
    (ks ++ '=' :: t).takeWhile (fun c => c != '=') = ks ∧
    (ks ++ '=' :: t).dropWhile (fun c => c != '=') = '=' :: t := by
  induction ks with
  | nil => constructor <;> simp [List.takeWhile_cons, List.dropWhile_cons]
  | cons c ks ih =>
    have hc : (c != '=') = true := by
      simpa [bne_iff_ne] using h c (by simp)
    have ih' := ih (fun x hx => h x (by simp [hx]))
    constructor
    · simp [List.takeWhile_cons, hc, ih'.1]
    · simp [List.dropWhile_cons, hc, ih'.2]

/-- Soundness of the line regex: a successful match determines the
shape of the line -- a nonempty key without equals signs, then an
equals sign and a quote, then the value (made of characters the dot may
match), then a closing quote at the very end. -/
theorem matchKV_eq_some (cs ks vs : List Char)
    (h : matchKV cs = some (ks, vs)) :
    ks ≠ [] ∧ (∀ c ∈ ks, c ≠ '=') ∧ vs.all dotOk = true ∧
      cs = ks ++ '=' :: '"' :: (vs ++ ['"']) := by
  simp only [matchKV] at h
  split at h
  case h_2 => exact absurd h (by simp)
  case h_1 rest heq =>
    split at h
    case isTrue => exact absurd h (by simp)
    case isFalse hemp =>
      split at h
      case h_2 => exact absurd h (by simp)
      case h_1 vrev hrev =>
        split at h
        case isFalse => exact absurd h (by simp)
        case isTrue hall =>
          simp only [Option.some.injEq, Prod.mk.injEq] at h
          obtain ⟨hks, hvs⟩ := h
          subst hks
          subst hvs
          refine ⟨?_, ?_, ?_, ?_⟩
          · intro hnil
            exact hemp (by rw [hnil]; rfl)
          · intro c hc
            simpa [bne_iff_ne] using List.mem_takeWhile_imp hc
          · simpa [List.all_reverse] using hall
          · have hrest : rest = vrev.reverse ++ ['"'] := by
              have h2 : rest.reverse.reverse = ('"' :: vrev).reverse := by rw [hrev]
              simpa using h2
            conv_lhs => rw [← List.takeWhile_append_dropWhile (fun c => c != '=') cs]
            rw [heq, hrest]

/-- Completeness of the line regex: a line of the matching shape
produces exactly its key and value as captures. -/
theorem matchKV_of_shape (ks vs : List Char) (hne : ks ≠ [])
    (hkeq : ∀ c ∈ ks, c ≠ '=') (hvs : vs.all dotOk = true) :
    matchKV (ks ++ '=' :: '"' :: (vs ++ ['"'])) = some (ks, vs) := by
  have htw := takeDropWhile_eq_split ks ('"' :: (vs ++ ['"'])) hkeq
  simp only [matchKV, htw.1, htw.2]
  rw [show (vs ++ ['"']).reverse = '"' :: vs.reverse by simp]
  simp [hne, List.all_reverse, hvs]

/-- A list all of whose elements satisfy the predicate is its own
takeWhile. -/
theorem takeWhile_eq_self_of_all (p : Char → Bool) :
    ∀ l : List Char, l.all p = true → l.takeWhile p = l
  | [], _ => rfl
  | c :: l, h => by
    simp only [List.all_cons, Bool.and_eq_true] at h
    simp [List.takeWhile_cons, h.1, takeWhile_eq_self_of_all p l h.2]

/-- Once the skip counter covers the remaining input, the scanner
produces nothing further. -/
theorem scanAux_drain : ∀ (cs : List Char) (k : Nat), cs.length ≤ k → scanAux k cs = []
  | [], _, _ => rfl
  | _ :: _, 0, h => by simp at h
  | _ :: cs, k + 1, h => by
    simp only [scanAux]
    exact scanAux_drain cs k (by simpa using h)

/-- A list is a Boolean prefix of itself followed by anything. -/
theorem isPrefixOf_append_self : ∀ l t : List Char, l.isPrefixOf (l ++ t) = true
  | [], _ => by simp
  | c :: l, t => by simp [List.isPrefixOf, isPrefixOf_append_self l t]

/-- A Boolean prefix is in particular a contiguous occurrence. -/
theorem hasSubSeq_of_prefix (pat l : List Char) (h : pat.isPrefixOf l = true) :
    hasSubSeq pat l = true := by
  cases l with
  | nil =>
    cases pat with
    | nil => rfl
    | cons c p => simp [List.isPrefixOf] at h
  | cons c rest => simp [hasSubSeq, h]

/-- Scanning the prefix characters followed by a nonempty run of
variable characters yields exactly that one whole-string match. -/
theorem scanAux_np_run (sfx : List Char) (hne : sfx ≠ [])
    (hall : sfx.all isVarChar = true) :
    scanAux 0 (npChars ++ sfx) = ["NEXT_PUBLIC_" ++ String.mk sfx] := by
  have hshape : ('N' : Char) :: ("EXT_PUBLIC_".data ++ sfx) = npChars ++ sfx := by
    rw [show npChars = 'N' :: "EXT_PUBLIC_".data from by decide]
    exact (List.cons_append _ _ _).symm
  have hpre : npChars.isPrefixOf ('N' :: ("EXT_PUBLIC_".data ++ sfx)) = true := by
    rw [hshape]; exact isPrefixOf_append_self _ _
  have hdrop : (('N' : Char) :: ("EXT_PUBLIC_".data ++ sfx)).drop 12 = sfx := by
    rw [hshape]
    exact List.drop_left' (by decide)
  have hlen : ("EXT_PUBLIC_".data ++ sfx).length = 11 + sfx.length := by
    rw [List.length_append, show ("EXT_PUBLIC_".data).length = 11 from by decide]
  have hemp : sfx.isEmpty = false := by
    cases sfx with
    | nil => exact absurd rfl hne
    | cons c l => rfl
  rw [← hshape]
  generalize hX : "EXT_PUBLIC_".data ++ sfx = X at hpre hdrop hlen
  have hdrain : scanAux (11 + sfx.length) X = [] :=
    scanAux_drain X (11 + sfx.length) (le_of_eq hlen)
  simp [scanAux, hpre, hdrop, takeWhile_eq_self_of_all isVarChar sfx hall, hemp, hdrain]

/-- C5: sidecar content is parsed by attempting JSON first and falling
back to the line format exactly when JSON parsing throws; the fallback
folds over the newline-split lines, skipping blank and '#'-comment
lines and lines not matching the KEY="VALUE" regex, and a matching line
contributes the trimmed key mapped to the trimmed value; the regex
matches precisely the lines made of a nonempty '='-free key, an equals
sign, and a double-quoted value running to the end of the line. -/
theorem C5_parseFallback (jp : String → Except String Store)
    (content line k v e : String) (s store : Store) (ks vs : List Char) :
    (jp content = .ok s → parseContent jp content = s) ∧
    (jp content = .error e → parseContent jp content = parseSimpleFormat content) ∧
    (parseSimpleFormat content =
      ((splitLines content.data).map String.mk).foldl parseLine []) ∧
    (jsTrim line = "" → parseLine store line = store) ∧
    (startsWithStr (jsTrim line) "#" = true → parseLine store line = store) ∧
    (jsTrim line ≠ "" → startsWithStr (jsTrim line) "#" = false → lineKV line = none →
      parseLine store line = store) ∧
    (jsTrim line ≠ "" → startsWithStr (jsTrim line) "#" = false →
      lineKV line = some (k, v) →
      parseLine store line = store.set (jsTrim k) (jsTrim v)) ∧
    (matchKV (ks ++ '=' :: '"' :: (vs ++ ['"'])) = some (ks, vs) ↔
      ks ≠ [] ∧ (∀ c ∈ ks, c ≠ '=') ∧ vs.all dotOk = true) ∧
    (matchKV line.data = some (ks, vs) →
      ks ≠ [] ∧ (∀ c ∈ ks, c ≠ '=') ∧ vs.all dotOk = true ∧
        line.data = ks ++ '=' :: '"' :: (vs ++ ['"'])) := by
  refine ⟨?_, ?_, rfl, ?_, ?_, ?_, ?_, ?_, matchKV_eq_some line.data ks vs⟩
  · intro h
    simp [parseContent, h]
  · intro h
    simp [parseContent, h]
  · intro h
    simp [parseLine, h]
  · intro h
    simp [parseLine, h]
  · intro h1 h2 h3
    rw [parseLine, if_neg (by simp [h1, h2]), h3]
  · intro h1 h2 h3
    rw [parseLine, if_neg (by simp [h1, h2]), h3]
  · constructor
    · intro h
      have := matchKV_eq_some _ _ _ h
      exact ⟨this.1, this.2.1, this.2.2.1⟩
    · intro h
      exact matchKV_of_shape ks vs h.1 h.2.1 h.2.2

/-- C5 witness: concrete JSON success, JSON failure with fallback, a
blank line, a comment line, a non-matching line, a matching line, and
the regex characterization at a concrete key and value. -/
theorem C5_witness :
    parseContent (fun _ => .ok [("NEXT_PUBLIC_A", "from json")]) "irrelevant" =
      [("NEXT_PUBLIC_A", "from json")] ∧
    parseContent jpFail "NEXT_PUBLIC_A=\"hello there\"" =
      parseSimpleFormat "NEXT_PUBLIC_A=\"hello there\"" ∧
    parseLine [] "   " = [] ∧
    parseLine [] "# a comment" = [] ∧
    parseLine [] "bad line" = [] ∧
    parseLine [] "NEXT_PUBLIC_A=\"hello there\"" =
      Store.set [] (jsTrim "NEXT_PUBLIC_A") (jsTrim "hello there") ∧
    matchKV ("K".data ++ '=' :: '"' :: ("v".data ++ ['"'])) = some ("K".data, "v".data) := by
  refine ⟨?_, ?_, ?_, ?_, ?_, ?_, ?_⟩
  · exact (C5_parseFallback (fun _ => .ok [("NEXT_PUBLIC_A", "from json")]) "irrelevant"
      "" "" "" "" [("NEXT_PUBLIC_A", "from json")] [] [] []).1 rfl
  · exact (C5_parseFallback jpFail "NEXT_PUBLIC_A=\"hello there\"" "" "" "" "Unexpected token"
      [] [] [] []).2.1 rfl
  · exact (C5_parseFallback jpFail "" "   " "" "" "" [] [] [] []).2.2.2.1 (by decide)
  · exact (C5_parseFallback jpFail "" "# a comment" "" "" "" [] [] [] []).2.2.2.2.1 (by decide)
  · exact (C5_parseFallback jpFail "" "bad line" "" "" "" [] [] [] []).2.2.2.2.2.1
      (by decide) (by decide) rfl
  · exact (C5_parseFallback jpFail "" "NEXT_PUBLIC_A=\"hello there\"" "NEXT_PUBLIC_A"
      "hello there" "" [] [] [] []).2.2.2.2.2.2.1 (by decide) (by decide) rfl
  · exact ((C5_parseFallback jpFail "" "" "" "" "" [] [] "K".data "v".data).2.2.2.2.2.2.2.1).mpr
      ⟨by decide, by decide, by decide⟩

/-- C6 counterexample: the claim says `process.env.X` and
`process.env["X"]` are detected identically for every name X.  For the
lowercase-suffixed name NEXT_PUBLIC_apiKey the static form is detected
by both the MemberExpression visitor and the Identifier visitor (two
diagnostics), while in the computed form the string literal fails the
`NEXT_PUBLIC_[A-Z0-9_]+` regex, leaving only the MemberExpression
diagnostic — different counts for the same store. -/
theorem C6_counterexample :
    (run000 [] (astStatic "NEXT_PUBLIC_apiKey") ⟨[]⟩).1.diags =
      [requiresMsg "NEXT_PUBLIC_apiKey", requiresMsg "NEXT_PUBLIC_apiKey"] ∧
    (run000 [] (astComputed "NEXT_PUBLIC_apiKey") ⟨[]⟩).1.diags =
      [requiresMsg "NEXT_PUBLIC_apiKey"] ∧
    [requiresMsg "NEXT_PUBLIC_apiKey", requiresMsg "NEXT_PUBLIC_apiKey"] ≠
      [requiresMsg "NEXT_PUBLIC_apiKey"] := by
  refine ⟨by decide, by decide, by decide⟩

/-- C6 amended: for every name of the shape NEXT_PUBLIC_ followed by a
nonempty suffix of characters from `[A-Z0-9_]` (the detection pattern),
and for every justification store, the static member access
`process.env.<name>` and the computed access `process.env["<name>"]`
produce identical per-file results — same diagnostics in the same
order and the same found set.  Names that merely start with the prefix
but violate the pattern are not detected identically (see the
counterexample). -/
theorem C6_staticComputedAgree (suffix : String) (justifications : Store) (g : Global)
    (hne : suffix ≠ "") (hall : suffix.data.all isVarChar = true) :
    (run000 justifications (astStatic ("NEXT_PUBLIC_" ++ suffix)) g).1 =
      (run000 justifications (astComputed ("NEXT_PUBLIC_" ++ suffix)) g).1 := by
  have hdata : ("NEXT_PUBLIC_" ++ suffix).data = npChars ++ suffix.data := by
    rw [String.data_append]
    rfl
  have hdne : suffix.data ≠ [] := by
    intro h
    exact hne (String.ext (by rw [h]))
  have hsw : startsWithStr ("NEXT_PUBLIC_" ++ suffix) "NEXT_PUBLIC_" = true := by
    unfold startsWithStr
    rw [hdata]
    exact isPrefixOf_append_self _ _
  have hinc : includesStr ("NEXT_PUBLIC_" ++ suffix) "NEXT_PUBLIC_" = true := by
    unfold includesStr
    rw [hdata]
    exact hasSubSeq_of_prefix _ _ (isPrefixOf_append_self _ _)
  have hscan : scanMatches ("NEXT_PUBLIC_" ++ suffix) = ["NEXT_PUBLIC_" ++ suffix] := by
    unfold scanMatches
    rw [hdata, scanAux_np_run suffix.data hdne hall]
  have hp : startsWithStr "process" "NEXT_PUBLIC_" = false := by decide
  have hv : startsWithStr "env" "NEXT_PUBLIC_" = false := by decide
  simp [run000, astStatic, astComputed, traverse000, traverseList000, memberVisitor000,
        identifierVisitor, literalVisitor, hsw, hinc, hscan, hp, hv]

/-- C6 witness: the well-formed name NEXT_PUBLIC_FOO with a store
carrying a long justification for it. -/
theorem C6_witness :
    (run000 [("NEXT_PUBLIC_FOO", "a sufficiently long justification")]
        (astStatic "NEXT_PUBLIC_FOO") ⟨[]⟩).1 =
      (run000 [("NEXT_PUBLIC_FOO", "a sufficiently long justification")]
        (astComputed "NEXT_PUBLIC_FOO") ⟨[]⟩).1 :=
  C6_staticComputedAgree "FOO" [("NEXT_PUBLIC_FOO", "a sufficiently long justification")]
    ⟨[]⟩ (by decide) (by decide)

end NextPublic

